import Mathlib

/-!
Shallow embedding of the spatial-analysis core of `src/app.py`
(class `SpatialAnalysisAPI`): dataset loading, spatial weight
construction, Moran autocorrelation analysis and spatial regression.
Machine floats are modelled by rationals; the float NaN produced by a
0/0 division is modelled by an `Option` value being `none`; a raised
exception caught by the source's try/except blocks is modelled by an
`Except.error` result (the exact message texts are immaterial).
Third-party statistical routines (libpysal's distance-band weights,
esda's Moran statistic, spreg's maximum-likelihood estimators,
statsmodels' intercept helper) are modelled from the algorithm
descriptions in the specification, since their code is not part of
this repository; the spreg estimators are abstracted as oracle
parameters because no claim depends on their numerics.
-/

namespace Spatial

/-- Scalar cell values of the tabular dataset: numeric, string, or a
geometry point. -/
inductive Value
  | num (q : ℚ)
  | str (s : String)
  | point (x y : ℚ)
deriving DecidableEq

/-- Tabular dataset (a pandas DataFrame): ordered association list of
named columns, each column an ordered list of cell values. -/
structure DataFrame where
  cols : List (String × List Value)
deriving DecidableEq

def colNames (df : DataFrame) : List String := df.cols.map (fun c => c.1)

def getCol (df : DataFrame) (name : String) : Option (List Value) :=
  (df.cols.find? (fun c => c.1 == name)).map (fun c => c.2)

def nrows (df : DataFrame) : Nat :=
  match df.cols with
  | [] => 0
  | c :: _ => c.2.length

/-- Well-formed frame: every column has exactly `nrows df` entries. -/
def Wf (df : DataFrame) : Prop := ∀ p ∈ df.cols, p.2.length = nrows df

instance (df : DataFrame) : Decidable (Wf df) := by
  unfold Wf; infer_instance

/-- Column assignment, as in pandas: overwrite in place when the name
exists, otherwise append the new column at the end. -/
def setCol (df : DataFrame) (name : String) (vals : List Value) : DataFrame :=
  if (df.cols.find? (fun c => c.1 == name)).isSome then
    ⟨df.cols.map (fun c => if c.1 == name then (c.1, vals) else c)⟩
  else ⟨df.cols ++ [(name, vals)]⟩

/-- Boolean row-mask selection on a single column. -/
def applyMask (mask : List Bool) (l : List Value) : List Value :=
  (mask.zip l).filterMap (fun p => if p.1 then some p.2 else none)

/-- Boolean row-mask selection on a whole frame
(pandas `df[df[col] == v]` style subsetting). -/
def filterMask (df : DataFrame) (mask : List Bool) : DataFrame :=
  ⟨df.cols.map (fun c => (c.1, applyMask mask c.2))⟩

def toNum : Value → Option ℚ
  | .num q => some q
  | _ => none

/-- Interpret a column as a numeric vector; `none` when any entry is
non-numeric (the source's numpy operations raise on such columns). -/
def valuesToNums : List Value → Option (List ℚ)
  | [] => some []
  | v :: vs =>
    match toNum v, valuesToNums vs with
    | some q, some qs => some (q :: qs)
    | _, _ => none

/-- Distinct values of a column in order of first appearance
(pandas `Series.unique`). -/
def uniqueVals (l : List Value) : List Value :=
  l.foldl (fun acc v => if v ∈ acc then acc else acc ++ [v]) []

/-- Python truthiness of a cell value: numeric zero and the empty
string are falsy; a geometry point is truthy. -/
def isFalsy : Value → Bool
  | .num q => decide (q = 0)
  | .str s => s == ""
  | .point _ _ => false

/-- Python `str(...)` rendering of a cell value. -/
def valueStr : Value → String
  | .num q => toString q
  | .str s => s
  | .point x y => "POINT (" ++ toString x ++ " " ++ toString y ++ ")"

/-- Ordering used by `pd.Categorical` to sort category values. -/
def vLe (a b : Value) : Bool :=
  match a, b with
  | .num p, .num q => decide (p ≤ q)
  | .num _, _ => true
  | .str _, .num _ => false
  | .str s, .str t => decide (s < t) || s == t
  | .str _, .point _ _ => true
  | .point x y, .point u v => decide (x < u) || (x == u && decide (y ≤ v))
  | .point _ _, _ => false

def insertSorted (v : Value) : List Value → List Value
  | [] => [v]
  | x :: xs => if vLe v x then v :: x :: xs else x :: insertSorted v xs

def sortVals (l : List Value) : List Value := l.foldr insertSorted []

/-- Category codes of `pd.Categorical(column).codes`: each value's
index within the sorted list of distinct values. -/
def catCodes (vs : List Value) : List Value :=
  let cats := sortVals (uniqueVals vs)
  vs.map (fun v => .num ((cats.indexOf v : Nat) : ℚ))

/-- Spatial weight structure: a square relation over the `n`
observations, stored as a dense row-major matrix of rational weights. -/
structure SpatialWeights where
  n : Nat
  w : List (List ℚ)
deriving DecidableEq

def wAt (W : SpatialWeights) (i j : Nat) : ℚ := (W.w.getD i []).getD j 0

def s0 (W : SpatialWeights) : ℚ := (W.w.map List.sum).sum

/-- Shared mutable state of `SpatialAnalysisAPI`: the loaded dataset
`data`, the cached weight structure `w`, and the (unused) `results`
mapping set up by the constructor. -/
structure AnalysisState where
  data : Option DataFrame
  w : Option SpatialWeights
  results : List (String × String)
deriving DecidableEq

/-- Derived columns created by `load_data`: the 1-based `id` column,
and a `city` column of category codes when a `name` column exists. -/
def addDerived (df : DataFrame) : DataFrame :=
  let df1 := setCol df "id" ((List.range (nrows df)).map (fun i => .num ((i : ℚ) + 1)))
  if "name" ∈ colNames df1 then
    setCol df1 "city" (catCodes ((getCol df1 "name").getD []))
  else df1

/-- Embedding of `SpatialAnalysisAPI.load_data`.  `parsed` is the
outcome of the external file read (`none` models the reader raising);
an unrecognized `file_type` skips the read and operates on the state's
current dataset, raising (hence failing) when none is loaded. -/
def load_data (st : AnalysisState) (parsed : Option DataFrame) (file_type : String) :
    (Bool × String) × AnalysisState :=
  let read : Option DataFrame :=
    if file_type == "excel" then parsed
    else if file_type == "csv" then parsed
    else st.data
  match read with
  | none => ((false, "数据加载失败"), st)
  | some df => ((true, "数据加载成功"), { st with data := some (addDerived df) })

def toPoint : Value → Option (ℚ × ℚ)
  | .point x y => some (x, y)
  | _ => none

def pointsToCoords : List Value → Option (List (ℚ × ℚ))
  | [] => some []
  | v :: vs =>
    match toPoint v, pointsToCoords vs with
    | some p, some ps => some (p :: ps)
    | _, _ => none

def numPair (a b : Value) : Option (ℚ × ℚ) :=
  match toNum a, toNum b with
  | some x, some y => some (x, y)
  | _, _ => none

def zipCoords : List Value → List Value → Option (List (ℚ × ℚ))
  | a :: as, b :: bs =>
    match numPair a b, zipCoords as bs with
    | some p, some ps => some (p :: ps)
    | _, _ => none
  | _, _ => some []

/-- Coordinate extraction of `create_spatial_weights`: geometry points
when a geometry column exists, otherwise zipped lon/lat columns. -/
def extractCoords (df : DataFrame) (lonCol latCol : String) : Option (List (ℚ × ℚ)) :=
  if "geometry" ∈ colNames df then
    pointsToCoords ((getCol df "geometry").getD [])
  else
    match getCol df lonCol, getCol df latCol with
    | some lon, some lat => zipCoords lon lat
    | _, _ => none

def sqdist (p q : ℚ × ℚ) : ℚ := (p.1 - q.1) ^ 2 + (p.2 - q.2) ^ 2

def cAt (coords : List (ℚ × ℚ)) (i : Nat) : ℚ × ℚ := coords.getD i (0, 0)

/-- Squared Euclidean distance between observations `i` and `j`. -/
def sqd (coords : List (ℚ × ℚ)) (i j : Nat) : ℚ := sqdist (cAt coords i) (cAt coords j)

def listMin : List ℚ → ℚ
  | [] => 0
  | x :: xs => xs.foldl min x

def listMax : List ℚ → ℚ
  | [] => 0
  | x :: xs => xs.foldl max x

/-- Squared distance from observation `i` to its nearest distinct
observation. -/
def minNeighborSq (coords : List (ℚ × ℚ)) (i : Nat) : ℚ :=
  listMin (((List.range coords.length).filter (fun j => j ≠ i)).map (fun j => sqd coords i j))

/-- Modelled from the spec: square of libpysal's
`min_threshold_distanceBand` - the smallest radius such that every
observation has at least one neighbor within it (working with squared
distances, which order the same way). -/
def thresholdSq (coords : List (ℚ × ℚ)) : ℚ :=
  listMax ((List.range coords.length).map (fun i => minNeighborSq coords i))

/-- No two distinct observations share a location (zero distance would
be raised to the negative power `alpha`). -/
def NoDup2 (coords : List (ℚ × ℚ)) : Prop :=
  ∀ i < coords.length, ∀ j < coords.length, i ≠ j → sqd coords i j ≠ 0

instance (coords : List (ℚ × ℚ)) : Decidable (NoDup2 coords) := by
  unfold NoDup2; infer_instance

/-- Weight between observations `i` and `j`:
`dist(i,j) ^ (-2.0)` (the reciprocal squared distance) for a distinct
pair within the threshold, zero otherwise - in particular no
self-weights. -/
def weightEntry (coords : List (ℚ × ℚ)) (i j : Nat) : ℚ :=
  if i ≠ j ∧ sqd coords i j ≤ thresholdSq coords then (sqd coords i j)⁻¹ else 0

def weightMatrix (coords : List (ℚ × ℚ)) : List (List ℚ) :=
  (List.range coords.length).map (fun i =>
    (List.range coords.length).map (fun j => weightEntry coords i j))

/-- Modelled from the spec: libpysal `DistanceBand.from_array` with
`alpha = -2.0` and `binary = False`; fails for fewer than 2
observations or duplicate coordinates. -/
def buildWeights (coords : List (ℚ × ℚ)) : Option SpatialWeights :=
  if coords.length < 2 then none
  else if NoDup2 coords then some ⟨coords.length, weightMatrix coords⟩
  else none

/-- Embedding of `SpatialAnalysisAPI.create_spatial_weights`. -/
def create_spatial_weights (st : AnalysisState) (lat_col lon_col : String) :
    (Bool × String) × AnalysisState :=
  match st.data with
  | none => ((false, "创建空间权重矩阵失败"), st)
  | some df =>
    match extractCoords df lon_col lat_col with
    | none => ((false, "创建空间权重矩阵失败"), st)
    | some coords =>
      match buildWeights coords with
      | none => ((false, "创建空间权重矩阵失败"), st)
      | some W => ((true, "空间权重矩阵创建成功"), { st with w := some W })

/-- Moran result record.  The statistic is `none` when its float
computation yields NaN (the 0/0 case).  The permutation p-value and
z-score of esda are randomized functions of the same `(y, W)` inputs
and are not modelled. -/
structure MoranRec where
  moran_i : Option ℚ
deriving DecidableEq

def meanQ (ys : List ℚ) : ℚ := ys.sum / (ys.length : ℚ)

/-- Deviations from the mean, `z = y - mean y`. -/
def devs (ys : List ℚ) : List ℚ := ys.map (fun v => v - meanQ ys)

/-- Denominator of the Moran statistic, the sum of squared deviations. -/
def denQ (ys : List ℚ) : ℚ := ((devs ys).map (fun v => v * v)).sum

/-- Numerator of the Moran statistic, the weighted cross product of
deviations. -/
def numQ (W : SpatialWeights) (ys : List ℚ) : ℚ :=
  ((List.range W.n).map (fun i =>
    ((List.range W.n).map (fun j =>
      wAt W i j * (devs ys).getD i 0 * (devs ys).getD j 0)).sum)).sum

/-- Modelled from the spec: the esda `Moran` statistic
`I = (N/S0) * numQ / denQ`; a vector whose length differs from the
structure's size raises a dimension-mismatch error inside the sparse
product, and a zero denominator (or zero `S0`) yields float NaN,
modelled `none`. -/
def moranCalc (W : SpatialWeights) (ys : List ℚ) : Except String MoranRec :=
  if ys.length ≠ W.n then .error "dimension mismatch"
  else if s0 W = 0 ∨ denQ ys = 0 then .ok ⟨none⟩
  else .ok ⟨some ((ys.length : ℚ) / s0 W * numQ W ys / denQ ys)⟩

/-- Result key used by `moran_analysis`:
`str(year) if year else 'all'` - the sentinel is chosen whenever the
year value is Python-falsy (`None`, but also the number 0). -/
def yearKey : Option Value → String
  | none => "all"
  | some v => if isFalsy v then "all" else valueStr v

/-- Tail of one `moran_analysis` loop iteration, after row subsetting:
extract the variable vector of the (possibly subsetted) frame and
compute the Moran statistic against the globally cached weight
structure. -/
def moranSub (subset : DataFrame) (wopt : Option SpatialWeights) (varName : String) :
    Except String MoranRec :=
  match getCol subset varName with
  | none => .error "KeyError: variable"
  | some col =>
    match wopt with
    | none => .error "weights not built"
    | some W =>
      match valuesToNums col with
      | none => .error "non-numeric variable"
      | some ys => moranCalc W ys

/-- One iteration of the `moran_analysis` loop: subset the rows to the
requested year group (the whole table for the `None` group), then run
the statistic on the subset's value vector. -/
def moranOne (df : DataFrame) (wopt : Option SpatialWeights) (varName : String)
    (year : Option Value) : Except String MoranRec :=
  match year with
  | none => moranSub df wopt varName
  | some v =>
    match getCol df "year" with
    | none => .error "KeyError: year"
    | some yc => moranSub (filterMask df (yc.map (fun c => decide (c = v)))) wopt varName

/-- Effectful map: run `f` left to right, aborting at the first error
and discarding any partial output (the loop body sits inside one
try/except in the source). -/
def tryMap {α β : Type} (f : α → Except String β) : List α → Except String (List β)
  | [] => .ok []
  | a :: as =>
    match f a with
    | .error e => .error e
    | .ok b =>
      match tryMap f as with
      | .error e => .error e
      | .ok bs => .ok (b :: bs)

/-- Default group keys of `moran_analysis`: the distinct values of the
`year` column when one exists, otherwise the single `None` group;
accessing the columns of an unloaded (`None`) dataset raises. -/
def defaultYears (st : AnalysisState) : Except String (List (Option Value)) :=
  match st.data with
  | none => .error "AttributeError"
  | some df =>
    if "year" ∈ colNames df then
      .ok ((uniqueVals ((getCol df "year").getD [])).map (fun v => some v))
    else .ok [none]

/-- Group keys actually iterated over: the caller-supplied list when
present, otherwise the defaults. -/
def resolveYears (st : AnalysisState) (years : Option (List Value)) :
    Except String (List (Option Value)) :=
  match years with
  | some ys => .ok (ys.map (fun v => some v))
  | none => defaultYears st

/-- Result computation of `moran_analysis` (the loop over the group
keys, all inside one try/except). -/
def moranGo (st : AnalysisState) (varName : String) (years : Option (List Value)) :
    Except String (List (String × MoranRec)) :=
  match resolveYears st years with
  | .error e => .error e
  | .ok yearList =>
    match st.data with
    | none => if yearList.isEmpty then .ok [] else .error "TypeError"
    | some df =>
      tryMap (fun y =>
        match moranOne df st.w varName y with
        | .error e => .error e
        | .ok r => .ok (yearKey y, r)) yearList

/-- Embedding of `SpatialAnalysisAPI.moran_analysis`.  The state is
returned unchanged: the method only reads `self.data` and `self.w`. -/
def moran_analysis (st : AnalysisState) (varName : String) (years : Option (List Value)) :
    Except String (List (String × MoranRec)) × AnalysisState :=
  (moranGo st varName years, st)

/-- One coefficient record of the regression output. -/
structure CoefRec where
  varName : String
  coefficient : ℚ
  std_error : ℚ
  p_value : ℚ
deriving DecidableEq

/-- Modelled from the spec: outcome of a spreg maximum-likelihood fit.
`betas` carries the regression coefficients followed by the spatial
parameter (rho or lambda), aligned with `std_err` and `p_values`. -/
structure FitResult where
  betas : List ℚ
  std_err : List ℚ
  p_values : List ℚ
  logll : ℚ
  r2 : Option ℚ
deriving DecidableEq

/-- Regression result record returned by `spatial_regression`. -/
structure RegResults where
  coefficients : List CoefRec
  log_likelihood : ℚ
  r2 : Option ℚ
  model_type : String
deriving DecidableEq

/-- Variable-name list of the coefficient loop, transcribed with
Python's conditional-expression precedence exactly as written in the
source: the whole concatenation
`['const'] + independent_vars + W-names` is the `if` branch, and every
model type other than `'sdm'` gets the empty list. -/
def coefNames (model_type : String) (independent_vars : List String) : List String :=
  if model_type == "sdm" then
    "const" :: (independent_vars ++ independent_vars.map (fun v => "W_" ++ v))
  else []

/-- Coefficient assembly loop: emit one record per enumerated variable
name whose index is within the fitted coefficient vector. -/
def buildCoefficients (names : List String) (fr : FitResult) : List CoefRec :=
  names.enum.filterMap (fun p =>
    if p.1 < fr.betas.length then
      some ⟨p.2, fr.betas.getD p.1 0, fr.std_err.getD p.1 0, fr.p_values.getD p.1 0⟩
    else none)

def dotL (a b : List ℚ) : ℚ := ((a.zip b).map (fun p => p.1 * p.2)).sum

/-- Spatial lag of a single column: the weight matrix applied to it. -/
def lagCol (W : SpatialWeights) (x : List ℚ) : List ℚ := W.w.map (fun row => dotL row x)

/-- Modelled from the spec: libpysal `lag_spatial` applied columnwise
(matrices are stored as lists of columns, so numpy `hstack` is list
append). -/
def lagMatrix (W : SpatialWeights) (X : List (List ℚ)) : List (List ℚ) := X.map (lagCol W)

/-- Modelled from the spec: statsmodels `add_constant` - prepend an
intercept column of ones. -/
def addConstant (n : Nat) (X : List (List ℚ)) : List (List ℚ) := List.replicate n (1 : ℚ) :: X

/-- Spatial-Durbin design matrix: the original columns followed by the
spatial lags of every column except the intercept (`X[:, 1:]`). -/
def sdmDesign (W : SpatialWeights) (X : List (List ℚ)) : List (List ℚ) :=
  X ++ lagMatrix W (X.drop 1)

def getNumCol (df : DataFrame) (name : String) : Option (List ℚ) :=
  (getCol df name).bind valuesToNums

def getNumCols (df : DataFrame) : List String → Option (List (List ℚ))
  | [] => some []
  | v :: vs =>
    match getNumCol df v, getNumCols df vs with
    | some c, some cs => some (c :: cs)
    | _, _ => none

/-- Model-family dispatch and fit of `spatial_regression`, with the
spreg estimators abstracted as oracles `fitLag` and `fitErr`. -/
def fitModel (fitLag fitErr : List ℚ → List (List ℚ) → SpatialWeights → FitResult)
    (wopt : Option SpatialWeights) (y : List ℚ) (X : List (List ℚ))
    (model_type : String) : Except String FitResult :=
  if model_type == "sar" then
    match wopt with
    | none => .error "weights not built"
    | some W => .ok (fitLag y X W)
  else if model_type == "sem" then
    match wopt with
    | none => .error "weights not built"
    | some W => .ok (fitErr y X W)
  else if model_type == "sdm" then
    match wopt with
    | none => .error "weights not built"
    | some W => .ok (fitLag y (sdmDesign W X) W)
  else .error "不支持的模型类型"

/-- Result computation of `spatial_regression` (everything inside the
method's try/except). -/
def regGo (fitLag fitErr : List ℚ → List (List ℚ) → SpatialWeights → FitResult)
    (st : AnalysisState) (dependent_var : String) (independent_vars : List String)
    (model_type : String) : Except String RegResults :=
  match st.data with
  | none => .error "TypeError"
  | some df =>
    match getNumCol df dependent_var with
    | none => .error "KeyError: dependent"
    | some y =>
      match getNumCols df independent_vars with
      | none => .error "KeyError: independent"
      | some Xraw =>
        match fitModel fitLag fitErr st.w y (addConstant (nrows df) Xraw) model_type with
        | .error e => .error e
        | .ok fitted =>
          .ok ⟨buildCoefficients (coefNames model_type independent_vars) fitted,
            fitted.logll, fitted.r2, model_type⟩

/-- Embedding of `SpatialAnalysisAPI.spatial_regression`.  The state
is returned unchanged: the method only reads `self.data` and
`self.w`. -/
def spatial_regression (fitLag fitErr : List ℚ → List (List ℚ) → SpatialWeights → FitResult)
    (st : AnalysisState) (dependent_var : String) (independent_vars : List String)
    (model_type : String) : Except String RegResults × AnalysisState :=
  (regGo fitLag fitErr st dependent_var independent_vars model_type, st)

/-- Trivial fit oracle used to instantiate the spreg abstraction in
concrete witnesses: all coefficient data one, correct vector length
(spreg returns the coefficients plus the spatial parameter). -/
def fit0 : List ℚ → List (List ℚ) → SpatialWeights → FitResult :=
  fun _ X _ => ⟨List.replicate (X.length + 1) 1, List.replicate (X.length + 1) 1,
    List.replicate (X.length + 1) 1, 0, none⟩

instance {ε α : Type} [DecidableEq ε] [DecidableEq α] : DecidableEq (Except ε α) := fun a b =>
  match a, b with
  | .ok x, .ok y =>
    if h : x = y then .isTrue (by rw [h]) else .isFalse (fun hc => h (Except.ok.inj hc))
  | .error e, .error e2 =>
    if h : e = e2 then .isTrue (by rw [h]) else .isFalse (fun hc => h (Except.error.inj hc))
  | .ok _, .error _ => .isFalse (fun hc => Except.noConfusion hc)
  | .error _, .ok _ => .isFalse (fun hc => Except.noConfusion hc)

/-- Concrete two-row dataset with a numeric dependent column `yv` and
one numeric independent column `xv`, used by witnesses. -/
def dfR : DataFrame := ⟨[("yv", [.num 1, .num 2]), ("xv", [.num 3, .num 4])]⟩

/-- Concrete 2-observation weight structure (two points at unit
distance: reciprocal squared distance 1 between them). -/
def W2 : SpatialWeights := ⟨2, [[0, 1], [1, 0]]⟩

/-- Concrete loaded state with weights built, used by witnesses. -/
def stR : AnalysisState := ⟨some dfR, some W2, []⟩

/-- C9: both analyzers are pure readers - `moran_analysis` and
`spatial_regression` return the shared state (dataset, weight
structure, results cache) exactly as given, on every input, successful
or failed. -/
theorem analyzers_read_only (st : AnalysisState) (v : String) (years : Option (List Value))
    (fitL fitE : List ℚ → List (List ℚ) → SpatialWeights → FitResult)
    (dep : String) (indep : List String) (mt : String) :
    (moran_analysis st v years).2 = st ∧
    (spatial_regression fitL fitE st dep indep mt).2 = st :=
  ⟨rfl, rfl⟩

/-- C7: every `load_data` call that reports failure leaves the whole
shared state - in particular the previously loaded dataset - exactly
as it was. -/
lemma load_data_eq (st : AnalysisState) (parsed : Option DataFrame) (ft : String) :
    load_data st parsed ft =
      match (if ft == "excel" then parsed else if ft == "csv" then parsed else st.data) with
      | none => ((false, "数据加载失败"), st)
      | some df => ((true, "数据加载成功"), { st with data := some (addDerived df) }) := rfl

theorem load_failure_keeps_dataset (st : AnalysisState) (parsed : Option DataFrame)
    (ft : String) (h : (load_data st parsed ft).1.1 = false) :
    (load_data st parsed ft).2 = st := by
  rw [load_data_eq] at h ⊢
  rcases hr : (if ft == "excel" then parsed else if ft == "csv" then parsed else st.data)
    with _ | df
  · rfl
  · rw [hr] at h
    exact Bool.noConfusion h

/-- Witness for C7: a failing excel read on a fresh state leaves the
state unchanged. -/
theorem load_failure_keeps_dataset_witness :
    (load_data ⟨none, none, []⟩ none "excel").1.1 = false ∧
    (load_data ⟨none, none, []⟩ none "excel").2 = ⟨none, none, []⟩ :=
  ⟨rfl, load_failure_keeps_dataset ⟨none, none, []⟩ none "excel" rfl⟩

/-- C4: a `spatial_regression` call whose model-type selector is none
of `sar`, `sem`, `sdm` (on a dataset where the requested variables
resolve) returns the tagged unsupported-model failure and leaves the
shared state unchanged. -/
theorem unsupported_model_type_fails
    (fitL fitE : List ℚ → List (List ℚ) → SpatialWeights → FitResult)
    (st : AnalysisState) (df : DataFrame) (dep : String) (indep : List String)
    (mt : String) (y : List ℚ) (Xs : List (List ℚ))
    (hd : st.data = some df) (hy : getNumCol df dep = some y)
    (hx : getNumCols df indep = some Xs)
    (h1 : mt ≠ "sar") (h2 : mt ≠ "sem") (h3 : mt ≠ "sdm") :
    spatial_regression fitL fitE st dep indep mt = (.error "不支持的模型类型", st) := by
  simp [spatial_regression, regGo, fitModel, hd, hy, hx, h1, h2, h3]

/-- Witness for C4: the model type `bogus` on a loaded two-row dataset
yields the tagged failure and the untouched state. -/
theorem unsupported_model_type_fails_witness :
    spatial_regression fit0 fit0 stR "yv" ["xv"] "bogus" = (.error "不支持的模型类型", stR) :=
  unsupported_model_type_fails fit0 fit0 stR dfR "yv" ["xv"] "bogus" [1, 2] [[3, 4]]
    rfl (by decide) (by decide) (by decide) (by decide) (by decide)

lemma getD_map_lt {α β : Type} (f : α → β) (l : List α) (j : Nat) (d : β) (d' : α)
    (h : j < l.length) : (l.map f).getD j d = f (l.getD j d') := by
  simp [List.getD, List.getElem?_map, List.getElem?_eq_getElem, h]

lemma getD_range_map {β : Type} (f : Nat → β) (n i : Nat) (d : β) (h : i < n) :
    ((List.range n).map f).getD i d = f i := by
  simp [List.getD, List.getElem?_map, List.getElem?_range, h]

/-- C2: for `k` independent variables the spatial-Durbin design matrix
has exactly `1 + 2k` columns: the intercept column of ones first
(never lagged), the `k` direct columns next, and then the `k` lagged
columns, each equal to the weight structure applied to the
corresponding direct column. -/
theorem sdm_design_matrix (W : SpatialWeights) (n k : Nat) (Xraw : List (List ℚ))
    (hk : Xraw.length = k) :
    (sdmDesign W (addConstant n Xraw)).length = 1 + 2 * k ∧
    (sdmDesign W (addConstant n Xraw)).getD 0 [] = List.replicate n 1 ∧
    (∀ j < k, (sdmDesign W (addConstant n Xraw)).getD (1 + j) [] = Xraw.getD j []) ∧
    (∀ j < k, (sdmDesign W (addConstant n Xraw)).getD (1 + k + j) [] =
      lagCol W (Xraw.getD j [])) := by
  have hD : sdmDesign W (addConstant n Xraw) =
      List.replicate n 1 :: (Xraw ++ Xraw.map (lagCol W)) := by
    simp [sdmDesign, addConstant, lagMatrix]
  refine ⟨?_, ?_, ?_, ?_⟩
  · rw [hD]; simp [hk]; omega
  · rw [hD]; rfl
  · intro j hj
    rw [hD]
    have h1 : 1 + j = j + 1 := by omega
    rw [h1, List.getD_cons_succ]
    exact List.getD_append _ _ _ _ (by omega)
  · intro j hj
    rw [hD]
    have h1 : 1 + k + j = (k + j) + 1 := by omega
    rw [h1, List.getD_cons_succ]
    rw [List.getD_append_right _ _ _ _ (by omega)]
    have h2 : k + j - Xraw.length = j := by omega
    rw [h2]
    exact getD_map_lt (lagCol W) Xraw j [] [] (by omega)

/-- Witness for C2: one independent variable over two observations. -/
theorem sdm_design_matrix_witness :
    (sdmDesign W2 (addConstant 2 ([[1, 2]] : List (List ℚ)))).length = 1 + 2 * 1 ∧
    (sdmDesign W2 (addConstant 2 ([[1, 2]] : List (List ℚ)))).getD 0 [] =
      List.replicate 2 1 ∧
    (∀ j < 1, (sdmDesign W2 (addConstant 2 ([[1, 2]] : List (List ℚ)))).getD (1 + j) [] =
      ([[1, 2]] : List (List ℚ)).getD j []) ∧
    (∀ j < 1, (sdmDesign W2 (addConstant 2 ([[1, 2]] : List (List ℚ)))).getD (1 + 1 + j) [] =
      lagCol W2 (([[1, 2]] : List (List ℚ)).getD j [])) :=
  sdm_design_matrix W2 2 1 [[1, 2]] rfl

lemma foldl_min_le_init (xs : List ℚ) (a : ℚ) : xs.foldl min a ≤ a := by
  induction xs generalizing a with
  | nil => exact le_refl a
  | cons x xs ih => exact le_trans (ih (min a x)) (min_le_left a x)

lemma foldl_min_le_mem (xs : List ℚ) (a b : ℚ) (hb : b ∈ xs) : xs.foldl min a ≤ b := by
  induction xs generalizing a with
  | nil => cases hb
  | cons x xs ih =>
    rcases List.mem_cons.mp hb with rfl | hb2
    · exact le_trans (foldl_min_le_init xs (min a b)) (min_le_right a b)
    · exact ih (min a x) hb2

lemma foldl_min_mem (xs : List ℚ) (a : ℚ) : xs.foldl min a = a ∨ xs.foldl min a ∈ xs := by
  induction xs generalizing a with
  | nil => exact Or.inl rfl
  | cons x xs ih =>
    rw [List.foldl_cons]
    rcases ih (min a x) with h | h
    · rcases min_choice a x with h2 | h2
      · exact Or.inl (h.trans h2)
      · exact Or.inr (by rw [h, h2]; exact List.mem_cons_self x xs)
    · exact Or.inr (List.mem_cons_of_mem x h)

lemma listMin_mem {l : List ℚ} (h : l ≠ []) : listMin l ∈ l := by
  cases l with
  | nil => exact absurd rfl h
  | cons x xs =>
    rcases foldl_min_mem xs x with h2 | h2
    · rw [listMin, h2]; exact List.mem_cons_self x xs
    · exact List.mem_cons_of_mem x h2

lemma le_foldl_max_init (xs : List ℚ) (a : ℚ) : a ≤ xs.foldl max a := by
  induction xs generalizing a with
  | nil => exact le_refl a
  | cons x xs ih => exact le_trans (le_max_left a x) (ih (max a x))

lemma le_foldl_max_mem (xs : List ℚ) (a b : ℚ) (hb : b ∈ xs) : b ≤ xs.foldl max a := by
  induction xs generalizing a with
  | nil => cases hb
  | cons x xs ih =>
    rcases List.mem_cons.mp hb with rfl | hb2
    · exact le_trans (le_max_right a b) (le_foldl_max_init xs (max a b))
    · exact ih (max a x) hb2

lemma le_listMax_of_mem {l : List ℚ} {a : ℚ} (h : a ∈ l) : a ≤ listMax l := by
  cases l with
  | nil => cases h
  | cons x xs =>
    rcases List.mem_cons.mp h with rfl | h2
    · exact le_foldl_max_init xs a
    · exact le_foldl_max_mem xs x a h2

lemma wAt_weightMatrix (coords : List (ℚ × ℚ)) (i j : Nat)
    (hi : i < coords.length) (hj : j < coords.length) :
    wAt ⟨coords.length, weightMatrix coords⟩ i j = weightEntry coords i j := by
  unfold wAt weightMatrix
  rw [getD_range_map _ _ _ _ hi, getD_range_map _ _ _ _ hj]

lemma sqd_nonneg (coords : List (ℚ × ℚ)) (i j : Nat) : 0 ≤ sqd coords i j :=
  add_nonneg (sq_nonneg _) (sq_nonneg _)

/-- C5: for at least two observations at pairwise distinct locations,
weight construction succeeds, puts a zero weight on every diagonal
entry, and gives every observation at least one strictly positive
neighbor weight. -/
theorem weights_no_self_and_positive_neighbor (coords : List (ℚ × ℚ))
    (h2 : 2 ≤ coords.length) (hnd : NoDup2 coords) :
    ∃ W, buildWeights coords = some W ∧ W.n = coords.length ∧
      (∀ i < coords.length, wAt W i i = 0) ∧
      (∀ i < coords.length, ∃ j < coords.length, 0 < wAt W i j) := by
  have hlt : ¬ coords.length < 2 := Nat.not_lt.mpr h2
  refine ⟨⟨coords.length, weightMatrix coords⟩, ?_, rfl, ?_, ?_⟩
  · simp [buildWeights, hlt, hnd]
  · intro i hi
    rw [wAt_weightMatrix coords i i hi hi]
    simp [weightEntry]
  · intro i hi
    have hj0 : (if i = 0 then 1 else 0) ∈
        (List.range coords.length).filter (fun j => j ≠ i) := by
      by_cases hi0 : i = 0
      · simp only [hi0, if_pos]
        exact List.mem_filter.mpr ⟨List.mem_range.mpr (by omega), by decide⟩
      · simp only [if_neg hi0]
        refine List.mem_filter.mpr ⟨List.mem_range.mpr (by omega), ?_⟩
        simp
        omega
    have hmapne : (((List.range coords.length).filter (fun j => j ≠ i)).map
        (fun j => sqd coords i j)) ≠ [] :=
      List.ne_nil_of_mem (List.mem_map_of_mem _ hj0)
    obtain ⟨j, hjf, hjeq⟩ := List.mem_map.mp (listMin_mem hmapne)
    obtain ⟨hjr, hjne⟩ := List.mem_filter.mp hjf
    have hjlt : j < coords.length := List.mem_range.mp hjr
    have hjnei : j ≠ i := by simpa using hjne
    have heq : sqd coords i j = minNeighborSq coords i := hjeq
    have hle : sqd coords i j ≤ thresholdSq coords := by
      rw [heq]
      unfold thresholdSq
      exact le_listMax_of_mem (List.mem_map.mpr ⟨i, List.mem_range.mpr hi, rfl⟩)
    have hpos : 0 < sqd coords i j :=
      lt_of_le_of_ne (sqd_nonneg coords i j)
        (Ne.symm (hnd i hi j hjlt (Ne.symm hjnei)))
    refine ⟨j, hjlt, ?_⟩
    rw [wAt_weightMatrix coords i j hi hjlt]
    unfold weightEntry
    rw [if_pos ⟨Ne.symm hjnei, hle⟩]
    exact inv_pos.mpr hpos

/-- Witness for C5: three distinct collinear points. -/
theorem weights_no_self_and_positive_neighbor_witness :
    2 ≤ ([((0 : ℚ), (0 : ℚ)), (1, 0), (3, 0)] : List (ℚ × ℚ)).length ∧
    NoDup2 ([((0 : ℚ), (0 : ℚ)), (1, 0), (3, 0)] : List (ℚ × ℚ)) ∧
    (∃ W, buildWeights ([((0 : ℚ), (0 : ℚ)), (1, 0), (3, 0)] : List (ℚ × ℚ)) = some W ∧
      W.n = ([((0 : ℚ), (0 : ℚ)), (1, 0), (3, 0)] : List (ℚ × ℚ)).length ∧
      (∀ i < ([((0 : ℚ), (0 : ℚ)), (1, 0), (3, 0)] : List (ℚ × ℚ)).length, wAt W i i = 0) ∧
      (∀ i < ([((0 : ℚ), (0 : ℚ)), (1, 0), (3, 0)] : List (ℚ × ℚ)).length,
        ∃ j < ([((0 : ℚ), (0 : ℚ)), (1, 0), (3, 0)] : List (ℚ × ℚ)).length, 0 < wAt W i j)) := by
  have hnd : NoDup2 ([((0 : ℚ), (0 : ℚ)), (1, 0), (3, 0)] : List (ℚ × ℚ)) := by
    intro i hi j hj hne
    have hi3 : i < 3 := by simpa using hi
    have hj3 : j < 3 := by simpa using hj
    interval_cases i <;> interval_cases j <;>
      norm_num [sqd, sqdist, cAt] at hne ⊢
  exact ⟨by norm_num, hnd,
    weights_no_self_and_positive_neighbor _ (by norm_num) hnd⟩

/-- C1 (code bug): a successful `sar` fit returns an empty coefficient
list - Python's conditional-expression precedence makes the variable
name list collapse to the empty list for every non-`sdm` model type,
so no coefficient records at all are emitted for `sar` and `sem`. -/
theorem sar_regression_coefficients_empty :
    (spatial_regression fit0 fit0 stR "yv" ["xv"] "sar").1 = .ok ⟨[], 0, none, "sar"⟩ ∧
    coefNames "sar" ["xv"] = [] ∧ coefNames "sem" ["xv"] = [] := by
  refine ⟨?_, rfl, rfl⟩
  rfl

lemma denQ_replicate (n : Nat) (q : ℚ) : denQ (List.replicate n q) = 0 := by
  cases n with
  | zero => simp [denQ, devs]
  | succ m =>
    have hm : meanQ (List.replicate (m + 1) q) = q := by
      rw [meanQ]
      simp only [List.sum_replicate, List.length_replicate, nsmul_eq_mul]
      exact mul_div_cancel_left₀ q (Nat.cast_ne_zero.mpr (Nat.succ_ne_zero m))
    simp [denQ, devs, hm, List.map_replicate, List.sum_replicate]

/-- C6 (amended): the Moran statistic of a constant-valued vector has
zero deviations, so both its numerator and its denominator are zero
and the float computation produces NaN (here `none`) - not the value
zero. -/
theorem constant_vector_moran_undefined (W : SpatialWeights) (q : ℚ) :
    moranCalc W (List.replicate W.n q) = .ok ⟨none⟩ := by
  unfold moranCalc
  rw [if_neg (by simp), if_pos (Or.inr (denQ_replicate W.n q))]

/-- Concrete one-column constant dataset used by the C6 counterexample. -/
def dfC : DataFrame := ⟨[("v", [.num 5, .num 5])]⟩

/-- Concrete state holding the constant dataset and the two-point
weight structure. -/
def stC : AnalysisState := ⟨some dfC, some W2, []⟩

/-- Counterexample to C6 as stated: on a constant-valued variable the
analysis succeeds but carries an undefined (NaN) statistic, which is
not the value zero. -/
theorem constant_moran_not_zero :
    (moran_analysis stC "v" none).1 = .ok [("all", ⟨none⟩)] ∧
    (MoranRec.mk none).moran_i ≠ some 0 := by
  have h2 : moranCalc W2 [5, 5] = .ok ⟨none⟩ := by
    norm_num [moranCalc, s0, denQ, devs, meanQ, W2]
  have h1 : (moran_analysis stC "v" none).1 =
      (match (match moranOne dfC (some W2) "v" none with
              | .error e => .error e
              | .ok r => .ok ((yearKey none : String), r) :
                Except String (String × MoranRec)) with
       | .error e => .error e
       | .ok b => .ok [b]) := by with_unfolding_all rfl
  refine ⟨?_, by simp⟩
  rw [h1, show moranOne dfC (some W2) "v" none = moranCalc W2 [5, 5] from rfl, h2]
  rfl

/-- Concrete dataset whose grouping column `year` is constantly the
falsy value 0. -/
def df10 : DataFrame := ⟨[("year", [.num 0, .num 0]), ("v", [.num 1, .num 2])]⟩

/-- Concrete state holding the year-0 dataset and the two-point weight
structure. -/
def st10 : AnalysisState := ⟨some df10, some W2, []⟩

/-- C10: a group whose year value is 0 (Python-falsy) is stored under
the sentinel key `all`, the same key the whole-table group would use,
so the two are indistinguishable in the output mapping. -/
lemma moranCalc_W2_onetwo : moranCalc W2 [1, 2] = .ok ⟨some (-1)⟩ := by
  norm_num [moranCalc, s0, denQ, devs, meanQ, numQ, wAt, W2,
    List.range_succ, List.range_zero]

theorem year_zero_group_uses_all_key :
    (moran_analysis st10 "v" none).1 = .ok [("all", ⟨some (-1)⟩)] ∧
    yearKey (some (.num 0)) = yearKey none := by
  have h2 : moranCalc W2 [1, 2] = .ok ⟨some (-1)⟩ := moranCalc_W2_onetwo
  have h1 : (moran_analysis st10 "v" none).1 =
      (match (match moranOne df10 (some W2) "v" (some (.num 0)) with
              | .error e => .error e
              | .ok r => .ok ((yearKey (some (.num 0)) : String), r) :
                Except String (String × MoranRec)) with
       | .error e => .error e
       | .ok b => .ok [b]) := by with_unfolding_all rfl
  constructor
  · rw [h1, show moranOne df10 (some W2) "v" (some (.num 0)) = moranCalc W2 [1, 2] from rfl,
      h2]
    rfl
  · rfl

lemma tryMap_ok {α β : Type} (f : α → Except String β) (l : List α)
    (res : List β) (d : α) (d2 : β) (h : tryMap f l = .ok res) :
    res.length = l.length ∧ ∀ j < l.length, f (l.getD j d) = .ok (res.getD j d2) := by
  induction l generalizing res with
  | nil =>
    simp only [tryMap] at h
    injection h with h2
    subst h2
    exact ⟨rfl, fun j hj => absurd hj (Nat.not_lt_zero j)⟩
  | cons a as ih =>
    simp only [tryMap] at h
    cases hfa : f a with
    | error e => rw [hfa] at h; exact Except.noConfusion h
    | ok b =>
      rw [hfa] at h
      cases hm : tryMap f as with
      | error e => rw [hm] at h; exact Except.noConfusion h
      | ok bs =>
        rw [hm] at h
        injection h with h2
        subst h2
        obtain ⟨ih1, ih2⟩ := ih bs hm
        constructor
        · simp [ih1]
        · intro j hj
          cases j with
          | zero => simpa using hfa
          | succ k =>
            have hk : k < as.length := by simpa using hj
            simpa using ih2 k hk

/-- C3: on a successful grouped run, every group's result record is
the Moran statistic of the value vector drawn from only that group's
rows, always computed against the single globally built weight
structure `W` held in the state - the structure is never rebuilt per
group. -/
theorem moran_groups_use_global_weights (st : AnalysisState) (v : String)
    (ys : List Value) (df : DataFrame) (W : SpatialWeights)
    (res : List (String × MoranRec)) (st2 : AnalysisState)
    (hd : st.data = some df) (hw : st.w = some W)
    (h : moran_analysis st v (some ys) = (.ok res, st2)) :
    res.length = ys.length ∧
    ∀ j < ys.length, ∃ yc g r,
      getCol df "year" = some yc ∧
      getNumCol (filterMask df (yc.map (fun c =>
        decide (c = ys.getD j (.num 0))))) v = some g ∧
      moranCalc W g = .ok r ∧
      res.getD j ("", ⟨none⟩) = (yearKey (some (ys.getD j (.num 0))), r) := by
  have hgo : moranGo st v (some ys) = .ok res := congrArg Prod.fst h
  simp only [moranGo, resolveYears, hd, hw] at hgo
  obtain ⟨hlen, hget⟩ := tryMap_ok _ _ _ (some (Value.num 0)) ("", (⟨none⟩ : MoranRec)) hgo
  constructor
  · simpa using hlen
  · intro j hj
    have hj2 : j < (ys.map (fun v => some v)).length := by simpa using hj
    have hfj := hget j hj2
    rw [getD_map_lt (fun v => some v) ys j (some (Value.num 0)) (Value.num 0) hj] at hfj
    cases hmo : moranOne df (some W) v (some (ys.getD j (Value.num 0))) with
    | error e =>
      rw [hmo] at hfj
      exact absurd hfj (by simp)
    | ok r =>
      rw [hmo] at hfj
      simp only at hfj
      injection hfj with hfj2
      simp only [moranOne] at hmo
      cases hyc : getCol df "year" with
      | none => rw [hyc] at hmo; exact Except.noConfusion hmo
      | some yc =>
        simp only [hyc] at hmo
        simp only [moranSub] at hmo
        cases hcol : getCol (filterMask df (yc.map (fun c =>
            decide (c = ys.getD j (Value.num 0))))) v with
        | none => rw [hcol] at hmo; exact Except.noConfusion hmo
        | some col =>
          simp only [hcol] at hmo
          cases hnum : valuesToNums col with
          | none => rw [hnum] at hmo; exact Except.noConfusion hmo
          | some g =>
            simp only [hnum] at hmo
            refine ⟨yc, g, r, rfl, ?_, hmo, hfj2.symm⟩
            simp only [getNumCol]
            rw [hcol]
            simpa using hnum

/-- Concrete single-year dataset: the one group (year 2020) covers the
whole table, so the grouped run succeeds. -/
def df3 : DataFrame := ⟨[("year", [.num 2020, .num 2020]), ("v", [.num 1, .num 2])]⟩

/-- Concrete state for the C3 witness. -/
def st3 : AnalysisState := ⟨some df3, some W2, []⟩

/-- Result of the C3 witness call. -/
def res3 : List (String × MoranRec) := [(yearKey (some (.num 2020)), ⟨some (-1)⟩)]

set_option maxRecDepth 8000 in
/-- Witness for C3: one explicit year group spanning the whole table. -/
theorem moran_groups_use_global_weights_witness :
    res3.length = [Value.num 2020].length ∧
    ∀ j < [Value.num 2020].length, ∃ yc g r,
      getCol df3 "year" = some yc ∧
      getNumCol (filterMask df3 (yc.map (fun c =>
        decide (c = [Value.num 2020].getD j (.num 0))))) "v" = some g ∧
      moranCalc W2 g = .ok r ∧
      res3.getD j ("", ⟨none⟩) = (yearKey (some ([Value.num 2020].getD j (.num 0))), r) := by
  have h1 : moran_analysis st3 "v" (some [.num 2020]) =
      ((match (match moranOne df3 (some W2) "v" (some (.num 2020)) with
               | .error e => .error e
               | .ok r => .ok ((yearKey (some (.num 2020)) : String), r) :
                 Except String (String × MoranRec)) with
        | .error e => .error e
        | .ok b => .ok [b]), st3) := by with_unfolding_all rfl
  have h : moran_analysis st3 "v" (some [.num 2020]) = (.ok res3, st3) := by
    rw [h1, show moranOne df3 (some W2) "v" (some (.num 2020)) = moranCalc W2 [1, 2]
      from rfl, moranCalc_W2_onetwo]
    rfl
  exact moran_groups_use_global_weights st3 "v" [.num 2020] df3 W2 res3 st3 rfl rfl h

lemma applyMask_cons (b : Bool) (bs : List Bool) (x : Value) (xs : List Value) :
    applyMask (b :: bs) (x :: xs) = if b then x :: applyMask bs xs else applyMask bs xs := by
  cases b <;> simp [applyMask]

lemma applyMask_length_le (m : List Bool) (l : List Value) :
    (applyMask m l).length ≤ l.length := by
  induction m generalizing l with
  | nil => simp [applyMask]
  | cons b bs ih =>
    cases l with
    | nil => simp [applyMask]
    | cons x xs =>
      rw [applyMask_cons]
      cases b with
      | true => simpa using Nat.succ_le_succ (ih xs)
      | false =>
        simp only [Bool.false_eq_true, if_false]
        exact le_trans (ih xs) (Nat.le_succ _)

lemma applyMask_full (m : List Bool) (l : List Value) (hm : m.length = l.length)
    (hl : (applyMask m l).length = l.length) : applyMask m l = l := by
  induction m generalizing l with
  | nil =>
    cases l with
    | nil => rfl
    | cons x xs => simp at hm
  | cons b bs ih =>
    cases l with
    | nil => simp at hm
    | cons x xs =>
      have hm2 : bs.length = xs.length := by simpa using hm
      rw [applyMask_cons] at hl ⊢
      cases b with
      | true =>
        have h3 : (applyMask bs xs).length = xs.length := by simpa using hl
        simp [ih xs hm2 h3]
      | false =>
        exfalso
        have hle := applyMask_length_le bs xs
        simp only [Bool.false_eq_true, if_false, List.length_cons] at hl
        omega

lemma valuesToNums_length (vs : List Value) (g : List ℚ) (h : valuesToNums vs = some g) :
    g.length = vs.length := by
  induction vs generalizing g with
  | nil =>
    simp only [valuesToNums] at h
    injection h with h2
    subst h2
    rfl
  | cons v vs ih =>
    simp only [valuesToNums] at h
    cases ht : toNum v with
    | none => rw [ht] at h; exact Option.noConfusion h
    | some q =>
      rw [ht] at h
      cases hv : valuesToNums vs with
      | none => rw [hv] at h; exact Option.noConfusion h
      | some qs =>
        rw [hv] at h
        injection h with h2
        subst h2
        simp [ih qs hv]

lemma find?_filterMask (cols : List (String × List Value)) (m : List Bool) (name : String) :
    (cols.map (fun c => (c.1, applyMask m c.2))).find? (fun c => c.1 == name) =
    (cols.find? (fun c => c.1 == name)).map (fun c => (c.1, applyMask m c.2)) := by
  induction cols with
  | nil => rfl
  | cons c cs ih =>
    simp only [List.map_cons, List.find?_cons]
    cases hc : (c.1 == name) with
    | true => simp only [hc]; rfl
    | false => simp only [hc]; exact ih

lemma getCol_filterMask (df : DataFrame) (m : List Bool) (name : String) :
    getCol (filterMask df m) name = (getCol df name).map (applyMask m) := by
  simp only [getCol, filterMask]
  rw [find?_filterMask]
  cases df.cols.find? (fun c => c.1 == name) <;> rfl

lemma getCol_mem (df : DataFrame) (name : String) (c : List Value)
    (h : getCol df name = some c) : (name, c) ∈ df.cols := by
  simp only [getCol] at h
  cases hf : df.cols.find? (fun p => p.1 == name) with
  | none => rw [hf] at h; exact Option.noConfusion h
  | some p =>
    rw [hf] at h
    injection h with h2
    have hmem := List.mem_of_find?_eq_some hf
    have hp := List.find?_some hf
    obtain ⟨p1, p2⟩ := p
    simp only at h2 hp
    have hp1 : p1 = name := by simpa using hp
    subst hp1
    subst h2
    exact hmem

lemma moranSub_error_of (subset : DataFrame) (wopt : Option SpatialWeights) (v : String)
    (hbad : getCol subset v = none ∨ wopt = none ∨
      (∃ col, getCol subset v = some col ∧ valuesToNums col = none) ∨
      (∃ col g W, getCol subset v = some col ∧ wopt = some W ∧
        valuesToNums col = some g ∧ g.length ≠ W.n)) :
    ∃ e, moranSub subset wopt v = .error e := by
  cases hcol : getCol subset v with
  | none => exact ⟨"KeyError: variable", by simp only [moranSub, hcol]⟩
  | some col =>
    cases hw : wopt with
    | none => exact ⟨"weights not built", by simp only [moranSub, hcol, hw]⟩
    | some W =>
      cases hnum : valuesToNums col with
      | none => exact ⟨"non-numeric variable", by simp only [moranSub, hcol, hw, hnum]⟩
      | some g =>
        rcases hbad with h | h | h | h
        · rw [hcol] at h; exact Option.noConfusion h
        · rw [hw] at h; exact Option.noConfusion h
        · obtain ⟨c2, hc2, hn2⟩ := h
          rw [hcol] at hc2
          injection hc2 with hc3
          subst hc3
          rw [hnum] at hn2
          exact Option.noConfusion hn2
        · obtain ⟨c2, g2, W3, hc2, hw2, hg2, hlen⟩ := h
          rw [hcol] at hc2
          injection hc2 with hc3
          subst hc3
          rw [hw] at hw2
          injection hw2 with hw3
          subst hw3
          rw [hnum] at hg2
          injection hg2 with hg3
          subst hg3
          refine ⟨"dimension mismatch", ?_⟩
          simp only [moranSub, hcol, hw, hnum, moranCalc]
          rw [if_pos hlen]

/-- C8 (amended): whenever the resolved group-key list is nonempty, a
`moran_analysis` call with an absent variable, a non-numeric variable
column, or no weight structure returns a tagged failure and never a
partial result mapping. -/
theorem moran_bad_inputs_fail (st : AnalysisState) (df : DataFrame) (v : String)
    (years : Option (List Value)) (yl : List (Option Value))
    (hd : st.data = some df) (hwf : Wf df)
    (hwn : ∀ W, st.w = some W → W.n = nrows df)
    (hyl : resolveYears st years = .ok yl) (hne : yl ≠ [])
    (hbad : getCol df v = none ∨
      (∃ col, getCol df v = some col ∧ valuesToNums col = none) ∨ st.w = none) :
    ∃ e, (moran_analysis st v years).1 = .error e := by
  obtain ⟨y0, rest, rfl⟩ := List.exists_cons_of_ne_nil hne
  suffices hone : ∃ e, moranOne df st.w v y0 = .error e by
    obtain ⟨e, he⟩ := hone
    refine ⟨e, ?_⟩
    show moranGo st v years = .error e
    simp only [moranGo, hyl, hd, tryMap, he]
  cases y0 with
  | none =>
    simp only [moranOne]
    apply moranSub_error_of
    rcases hbad with h | h | h
    · exact Or.inl h
    · exact Or.inr (Or.inr (Or.inl h))
    · exact Or.inr (Or.inl h)
  | some yv =>
    simp only [moranOne]
    cases hyc : getCol df "year" with
    | none => exact ⟨"KeyError: year", rfl⟩
    | some yc =>
      apply moranSub_error_of
      set mask := yc.map (fun c => decide (c = yv)) with hmask
      rcases hbad with h | h | h
      · refine Or.inl ?_
        rw [getCol_filterMask, h]
        rfl
      · obtain ⟨col, hcol, hnn⟩ := h
        have hsub : getCol (filterMask df mask) v = some (applyMask mask col) := by
          rw [getCol_filterMask, hcol]
          rfl
        cases hnumsub : valuesToNums (applyMask mask col) with
        | none => exact Or.inr (Or.inr (Or.inl ⟨applyMask mask col, hsub, hnumsub⟩))
        | some g =>
          cases hw : st.w with
          | none => exact Or.inr (Or.inl rfl)
          | some W =>
            refine Or.inr (Or.inr (Or.inr
              ⟨applyMask mask col, g, W, hsub, rfl, hnumsub, ?_⟩))
            have hWn : W.n = nrows df := hwn W hw
            have hcl : col.length = nrows df := hwf (v, col) (getCol_mem df v col hcol)
            have hycl : yc.length = nrows df := hwf ("year", yc) (getCol_mem df "year" yc hyc)
            have hmlen : mask.length = col.length := by
              rw [hmask, List.length_map, hycl, hcl]
            have hglen : g.length = (applyMask mask col).length :=
              valuesToNums_length (applyMask mask col) g hnumsub
            intro hcontra
            have h1 : (applyMask mask col).length = col.length := by omega
            have h2 : applyMask mask col = col := applyMask_full mask col hmlen h1
            rw [h2, hnn] at hnumsub
            exact Option.noConfusion hnumsub
      · exact Or.inr (Or.inl h)

/-- State with a loaded dataset but no weight structure, used by the
C8 counterexample and witness. -/
def st8 : AnalysisState := ⟨some dfR, none, []⟩

/-- Counterexample to C8 as stated: with an explicit empty group list
the loop body never runs, so the call succeeds with an empty result
mapping even though the requested variable is absent and the weight
structure was never built. -/
theorem moran_empty_years_succeeds :
    ("absent" ∉ colNames dfR) ∧ st8.w = none ∧
    (moran_analysis st8 "absent" (some [])).1 = .ok [] :=
  ⟨by decide, rfl, rfl⟩

/-- Witness for C8 (amended): default grouping on a year-less table
gives the single whole-table group, and the missing weight structure
makes the call fail. -/
theorem moran_bad_inputs_fail_witness :
    Wf dfR ∧ resolveYears st8 none = .ok [none] ∧
    (∃ e, (moran_analysis st8 "yv" none).1 = .error e) := by
  refine ⟨by decide, rfl, ?_⟩
  exact moran_bad_inputs_fail st8 dfR "yv" none [none] rfl (by decide)
    (fun W hW => Option.noConfusion hW) rfl (by simp)
    (Or.inr (Or.inr rfl))

end Spatial
